import Mathlib

/-!
Shallow embedding of `application.py` (Flask fake-news classifier service):
artifact path resolution, the process-wide artifact store with its
double-checked-locking loader `_load_artifacts_once`, the inference function
`_predict_text`, and the HTTP handlers `health`, `demo`, `predict_form`,
`predict_json`.  Mutable module globals become an explicit `Store` record
threaded through the functions; the file system and the deserializer
(`open` + `pickle.load`) become an `FS` record of `Except` results; Python
exceptions become the `PyErr` type, matched by the handlers exactly the way
the `except` clauses in the source dispatch on exception classes.
-/

namespace App

/-- Python exceptions that can arise on the inference path:
`FileNotFoundError` from `open`, `PermissionError` (unreadable file),
`pickle.UnpicklingError` (corrupt file), and any other exception with its
message text (e.g. one raised inside `transform`/`predict`). -/
inductive PyErr where
  | fileNotFoundError : PyErr
  | permissionError : PyErr
  | unpicklingError : PyErr
  | otherError (msg : String) : PyErr
deriving DecidableEq, Repr

/-- A value appearing in a prediction batch (`pred[0]` in the source): either
a native Python value or a numpy boxed scalar, which has an `.item()` method. -/
inductive PyVal where
  | pyStr (s : String) : PyVal
  | pyInt (n : Int) : PyVal
  | npStr (s : String) : PyVal
  | npInt (n : Int) : PyVal
deriving DecidableEq, Repr

/-- `hasattr(val, "item")`: true exactly for the numpy boxed scalars. -/
def PyVal.hasattrItem : PyVal → Bool
  | .npStr _ => true
  | .npInt _ => true
  | _ => false

/-- `val.item()`: unbox a numpy scalar to the native Python value. -/
def PyVal.item : PyVal → PyVal
  | .npStr s => .pyStr s
  | .npInt n => .pyInt n
  | v => v

/-- `str(val)` for the values a prediction batch can hold. -/
def PyVal.pyToStr : PyVal → String
  | .pyStr s => s
  | .pyInt n => toString n
  | .npStr s => s
  | .npInt n => toString n

/-- Opaque feature representation produced by `vectorizer.transform`. -/
abbrev Feat := List Nat

/-- The vectorizer capability: `transform` on a batch of strings; may raise. -/
abbrev PVectorizer := List String → Except PyErr Feat

/-- The classifier capability: `predict` on features, yielding a batch; may raise. -/
abbrev PModel := Feat → Except PyErr (List PyVal)

/-- The file system plus deserializer: the combined result of
`open(MODEL_PATH, "rb")` + `pickle.load` for each artifact file. -/
structure FS where
  readModel : Except PyErr PModel
  readVectorizer : Except PyErr PVectorizer

/-- The module-global mutable state of `application.py`: `_loaded_model`,
`_vectorizer`, plus instrumentation counters that record observable events
(deserializations performed, lock acquisitions, and the arguments with which
the inference function `_predict_text` was invoked). -/
structure Store where
  loadedModel : Option PModel
  vectorizer : Option PVectorizer
  modelLoads : Nat
  vecLoads : Nat
  lockAcquires : Nat
  classifyCalls : List String

/-- The state at process start: both globals `None`, nothing loaded. -/
def Store.initial : Store :=
  { loadedModel := none, vectorizer := none, modelLoads := 0, vecLoads := 0,
    lockAcquires := 0, classifyCalls := [] }

/-- Both artifacts present — the expression
`_loaded_model is not None and _vectorizer is not None` used by the fast
path, the health endpoint and the demo page. -/
def Store.bothLoaded (st : Store) : Bool :=
  st.loadedModel.isSome && st.vectorizer.isSome

/-- `_load_artifacts_once`, sequential semantics: fast-path check, lock
acquisition, double check, then `_loaded_model = pickle.load(mf)` followed by
`_vectorizer = pickle.load(vf)`.  Returns the post state together with the
exception, if any, that propagated out (the `with` statement releases the
lock either way).  Note the model assignment happens before the vectorizer
file is read, so a vectorizer failure leaves the model published. -/
def load_artifacts_once (fs : FS) (st : Store) : Store × Option PyErr :=
  if st.loadedModel.isSome && st.vectorizer.isSome then
    (st, none)
  else
    let st1 : Store := { st with lockAcquires := st.lockAcquires + 1 }
    if st1.loadedModel.isNone || st1.vectorizer.isNone then
      match fs.readModel with
      | .error e => (st1, some e)
      | .ok m =>
        let st2 : Store :=
          { st1 with loadedModel := some m, modelLoads := st1.modelLoads + 1 }
        match fs.readVectorizer with
        | .error e => (st2, some e)
        | .ok v =>
          ({ st2 with vectorizer := some v, vecLoads := st2.vecLoads + 1 }, none)
    else
      (st1, none)

/-- `_predict_text`: ensure artifacts are loaded, transform a single-element
batch, predict, and normalize `pred[0]` to a native string (unboxing via
`.item()` when present).  Any exception propagates as a `PyErr`.  The
argument is recorded in `classifyCalls` on entry. -/
def predict_text (fs : FS) (st : Store) (message : String) :
    Store × Except PyErr String :=
  let st0 : Store := { st with classifyCalls := st.classifyCalls ++ [message] }
  match load_artifacts_once fs st0 with
  | (st1, some e) => (st1, .error e)
  | (st1, none) =>
    match st1.vectorizer with
    | none => (st1, .error (.otherError "AttributeError: NoneType has no attribute transform"))
    | some vec =>
      match vec [message] with
      | .error e => (st1, .error e)
      | .ok feats =>
        match st1.loadedModel with
        | none => (st1, .error (.otherError "AttributeError: NoneType has no attribute predict"))
        | some model =>
          match model feats with
          | .error e => (st1, .error e)
          | .ok [] => (st1, .error (.otherError "IndexError: index 0 is out of bounds"))
          | .ok (v :: _) =>
            (st1, .ok (PyVal.pyToStr (if v.hasattrItem then v.item else v)))

/-- Python `x or y` on an optional string: `None` and `""` are falsy, so the
default wins for both (this is how an empty env override is treated as unset). -/
def pyOrElse (x : Option String) (d : String) : String :=
  match x with
  | none => d
  | some s => if s = "" then d else s

/-- `s.startswith(p)` over the underlying character lists. -/
def strStartsWith (s p : String) : Bool := p.data.isPrefixOf s.data

/-- `s.endswith(p)` over the underlying character lists. -/
def strEndsWith (s p : String) : Bool := p.data.isSuffixOf s.data

/-- `os.path.join a b` for the shapes arising here: an absolute second
component replaces the first, otherwise the parts are joined with `/`. -/
def os_path_join (a b : String) : String :=
  if strStartsWith b "/" then b
  else if a = "" then b
  else if strEndsWith a "/" then a ++ b
  else a ++ "/" ++ b

/-- `MODEL_PATH = os.getenv("MODEL_PATH") or os.path.join(BASE_DIR, "basic_classifier.pkl")`,
as a function of the environment and of `BASE_DIR` (the directory of the
source file). -/
def MODEL_PATH (env : String → Option String) (baseDir : String) : String :=
  pyOrElse (env "MODEL_PATH") (os_path_join baseDir "basic_classifier.pkl")

/-- `VECTORIZER_PATH = os.getenv("VECTORIZER_PATH") or os.path.join(BASE_DIR, "count_vectorizer.pkl")`. -/
def VECTORIZER_PATH (env : String → Option String) (baseDir : String) : String :=
  pyOrElse (env "VECTORIZER_PATH") (os_path_join baseDir "count_vectorizer.pkl")

/-- Characters Python's `str.strip()` removes (ASCII whitespace). -/
def pyIsSpace (c : Char) : Bool :=
  c = ' ' || c = '\t' || c = '\n' || c = '\x0d' || c = '\x0b' || c = '\x0c'

/-- Python `s.strip()`: drop leading and trailing whitespace. -/
def pyStrip (s : String) : String :=
  ⟨((s.data.dropWhile pyIsSpace).reverse.dropWhile pyIsSpace).reverse⟩

/-- Jinja2 autoescaping of one character (markupsafe`.escape`). -/
def htmlEscapeChar (c : Char) : String :=
  if c = '&' then "&amp;"
  else if c = '<' then "&lt;"
  else if c = '>' then "&gt;"
  else if c = '"' then "&#34;"
  else if c = '\x27' then "&#39;"
  else String.singleton c

/-- Jinja2 autoescaping of an interpolated value (`render_template_string`
autoescapes every `\x7b\x7b ... \x7d\x7d` interpolation). -/
def htmlEscape (s : String) : String :=
  s.data.foldl (fun acc c => acc ++ htmlEscapeChar c) ""

/-- A JSON value as parsed by `request.get_json` (objects and arrays beyond
the top level are not needed by any claim; numbers are modelled as integers). -/
inductive JVal where
  | null : JVal
  | jbool (b : Bool) : JVal
  | jnum (n : Int) : JVal
  | jstr (s : String) : JVal
deriving DecidableEq, Repr

/-- Python `str(...)` applied to a parsed JSON value, as `predict_json` does
with `str(data.get("message", ""))`. -/
def pyStrOfJVal : JVal → String
  | .null => "None"
  | .jbool true => "True"
  | .jbool false => "False"
  | .jnum n => toString n
  | .jstr s => s

/-- `data.get(key, default)` on the parsed JSON object. -/
def jsonGet (fields : List (String × JVal)) (key : String) (dflt : JVal) : JVal :=
  match fields.lookup key with
  | some v => v
  | none => dflt

/-- An HTTP response body: a JSON object (from `jsonify`) or a rendered HTML
page (from `render_template_string`). -/
inductive Body where
  | json (fields : List (String × JVal)) : Body
  | html (page : String) : Body
deriving DecidableEq

/-- The serialized body text sent to the client. -/
def bodyText : Body → String
  | .json fields =>
    "\x7b" ++ String.intercalate ", "
      (fields.map (fun kv => "\"" ++ kv.1 ++ "\": " ++
        (match kv.2 with
         | .null => "null"
         | .jbool true => "true"
         | .jbool false => "false"
         | .jnum n => toString n
         | .jstr s => "\"" ++ s ++ "\""))) ++ "\x7d"
  | .html page => page

/-- An HTTP response: status code plus body. -/
structure HttpResp where
  status : Nat
  body : Body

/-- `DEMO_HTML` up to the dynamic status class (literal braces written as
escapes; the text is the template's). -/
def demoHtmlHead : String :=
  "\n<!doctype html>\n<html lang=\"en\">\n<head>\n  <meta charset=\"utf-8\">\n  <meta name=\"viewport\" content=\"width=device-width, initial-scale=1\">\n  <title>Text Classifier Demo</title>\n  <style>\n    body \x7b font-family: -apple-system, BlinkMacSystemFont, \"Segoe UI\", Roboto, \"Helvetica Neue\", Arial, sans-serif; line-height: 1.6; color: #333; max-width: 800px; margin: 2rem auto; padding: 0 1rem; background-color: #f8f9fa; \x7d\n    h1, h2 \x7b color: #0056b3; \x7d\n    h1 \x7b text-align: center; border-bottom: 2px solid #dee2e6; padding-bottom: 0.5rem; margin-bottom: 1.5rem; \x7d\n    .container \x7b background: #fff; padding: 2rem; border-radius: 8px; box-shadow: 0 4px 6px rgba(0,0,0,0.1); \x7d\n    .status \x7b padding: 0.75rem 1.25rem; margin-bottom: 1rem; border: 1px solid transparent; border-radius: .25rem; \x7d\n    .status-ok \x7b color: #155724; background-color: #d4edda; border-color: #c3e6cb; \x7d\n    .status-fail \x7b color: #721c24; background-color: #f8d7da; border-color: #f5c6cb; \x7d\n    form \x7b display: flex; flex-direction: column; \x7d\n    textarea \x7b font-size: 1rem; padding: 0.5rem; border-radius: 4px; border: 1px solid #ced4da; margin-bottom: 1rem; resize: vertical; min-height: 100px; \x7d\n    button \x7b cursor: pointer; background-color: #007bff; color: white; border: none; padding: 0.75rem 1.5rem; border-radius: 4px; font-size: 1rem; transition: background-color 0.2s; \x7d\n    button:hover \x7b background-color: #0056b3; \x7d\n    .result, .error \x7b margin-top: 1.5rem; padding: 1rem; border-radius: 4px; \x7d\n    .result \x7b background-color: #e2e3e5; \x7d\n    .result h2 \x7b margin-top: 0; \x7d\n    .error \x7b background-color: #f8d7da; color: #721c24; \x7d\n    .error h2 \x7b margin-top: 0; color: #721c24; \x7d\n    footer \x7b text-align: center; margin-top: 2rem; font-size: 0.9rem; color: #6c757d; \x7d\n  </style>\n</head>\n<body>\n  <div class=\"container\">\n    <h1>Text Classifier Demo</h1>\n\n    <div class=\"status "

/-- The fixed part of the template between the status div and the textarea
content. -/
def demoHtmlForm : String :=
  "\n    </div>\n\n    <form action=\"/predict-form\" method=\"post\">\n      <label for=\"message\">Enter text to classify:</label>\n      <textarea name=\"message\" id=\"message\" rows=\"6\" required>"

/-- The fixed part of the template between the textarea and the conditional
prediction block. -/
def demoHtmlAfterForm : String :=
  "</textarea>\n      <button type=\"submit\">Predict</button>\n    </form>\n\n    "

/-- The fixed part of the template between the error block and the footer
interpolation of `model_path`. -/
def demoHtmlFooterPre : String :=
  "\n  </div>\n  <footer>\n    <p>Using model: <code>"

/-- The tail of the template after the `model_path` interpolation. -/
def demoHtmlFooterPost : String :=
  "</code></p>\n  </footer>\n</body>\n</html>\n"

/-- `render_template_string(DEMO_HTML, model_loaded=…, model_path=…,
prediction=…, error=…)` with `request.form.get("message", "")` echoed into
the textarea; every interpolated value is autoescaped. -/
def renderDemoHtml (model_loaded : Bool) (model_path : String)
    (prediction : Option String) (error : Option String)
    (formMessage : String) : String :=
  demoHtmlHead
  ++ (if model_loaded then "status-ok" else "status-fail")
  ++ "\">\n      <strong>Model Status:</strong> "
  ++ (if model_loaded then "Loaded successfully." else "Not loaded. Predictions will fail.")
  ++ demoHtmlForm
  ++ htmlEscape formMessage
  ++ demoHtmlAfterForm
  ++ (match prediction with
      | some p =>
        "\n      <div class=\"result\">\n        <h2>Prediction</h2>\n        <p>The model classified the text as: <strong>"
        ++ htmlEscape p ++ "</strong></p>\n      </div>\n    "
      | none => "")
  ++ "\n\n    "
  ++ (match error with
      | some e =>
        "\n      <div class=\"error\">\n        <h2>Error</h2>\n        <p>"
        ++ htmlEscape e ++ "</p>\n      </div>\n    "
      | none => "")
  ++ demoHtmlFooterPre
  ++ htmlEscape model_path
  ++ demoHtmlFooterPost

/-- The 400 validation message of both prediction endpoints. -/
def errMsgRequired : String := "Field \x27message\x27 is required and must be non-empty."

/-- The 503 message of both prediction endpoints. -/
def errMsgArtifacts : String := "Model artifacts not found on server."

/-- The 500 message of both prediction endpoints. -/
def errMsgInference : String := "Inference failed."

/-- `GET /` — the health endpoint: `jsonify(...)`, 200. -/
def health (st : Store) (modelPath vectorizerPath : String) : HttpResp :=
  { status := 200,
    body := .json
      [("status", .jstr "ok"),
       ("model_loaded", .jbool st.bothLoaded),
       ("model_path", .jstr modelPath),
       ("vectorizer_path", .jstr vectorizerPath)] }

/-- `GET /demo` — renders the demo page with the current load status. -/
def demo (st : Store) (modelPath : String) : HttpResp :=
  { status := 200, body := .html (renderDemoHtml st.bothLoaded modelPath none none "") }

/-- `POST /predict-form`: validate the form field, run inference, and map
exceptions exactly as the source's `except` clauses do (`FileNotFoundError`
to 503, everything else to 500). -/
def predict_form (fs : FS) (st : Store) (modelPath : String)
    (formMessage : Option String) : Store × HttpResp :=
  let echoed := formMessage.getD ""
  let message := pyStrip (pyOrElse formMessage "")
  if message = "" then
    (st, { status := 400,
           body := .html (renderDemoHtml st.bothLoaded modelPath none (some errMsgRequired) echoed) })
  else
    match predict_text fs st message with
    | (st1, .ok label) =>
      (st1, { status := 200,
              body := .html (renderDemoHtml true modelPath (some label) none echoed) })
    | (st1, .error PyErr.fileNotFoundError) =>
      (st1, { status := 503,
              body := .html (renderDemoHtml false modelPath none (some errMsgArtifacts) echoed) })
    | (st1, .error _) =>
      (st1, { status := 500,
              body := .html (renderDemoHtml st1.bothLoaded modelPath none (some errMsgInference) echoed) })

/-- `POST /predict`: `request.get_json(silent=True) or \x7b\x7d`, coerce the
`message` value with `str`, strip, validate, run inference, and map
exceptions exactly as the source's `except` clauses do. -/
def predict_json (fs : FS) (st : Store)
    (reqJson : Option (List (String × JVal))) : Store × HttpResp :=
  let data := reqJson.getD []
  let message := pyStrip (pyStrOfJVal (jsonGet data "message" (.jstr "")))
  if message = "" then
    (st, { status := 400, body := .json [("error", .jstr errMsgRequired)] })
  else
    match predict_text fs st message with
    | (st1, .ok label) =>
      (st1, { status := 200, body := .json [("label", .jstr label)] })
    | (st1, .error PyErr.fileNotFoundError) =>
      (st1, { status := 503, body := .json [("error", .jstr errMsgArtifacts)] })
    | (st1, .error _) =>
      (st1, { status := 500, body := .json [("error", .jstr errMsgInference)] })

/-!
Interleaved small-step semantics of `_load_artifacts_once` for the
concurrency claims: each request thread (and the background eager-load
thread) runs the same loader body, broken at its shared-memory accesses; a
schedule is the sequence of thread ids picked by the scheduler.  `mOk`/`vOk`
say whether reading + deserializing the corresponding file succeeds (on
failure the exception propagates out of the `with` block, which releases the
lock; the globals assigned so far stay assigned).
-/

/-- Program counter of one thread running `_load_artifacts_once`. -/
inductive TPC where
  | start : TPC
  | waitLock : TPC
  | check : TPC
  | loadM : TPC
  | loadV : TPC
  | release : TPC
  | doneFast : TPC
  | doneLocked : TPC
  | doneError : TPC
deriving DecidableEq, Repr

/-- Shared state plus all thread program counters. -/
structure LState where
  model : Bool
  vec : Bool
  lockBy : Option Nat
  mLoads : Nat
  vLoads : Nat
  pcs : List TPC
deriving DecidableEq, Repr

/-- Cold start: nothing loaded, lock free, `n` threads about to call the
loader. -/
def loaderInit (n : Nat) : LState :=
  { model := false, vec := false, lockBy := none, mLoads := 0, vLoads := 0,
    pcs := List.replicate n .start }

/-- One atomic step of thread `t`: the fast-path read, the lock acquisition
(a no-op while another thread holds the lock), the double check, the two
deserialize-and-publish assignments, and the lock release. -/
def loaderStep (mOk vOk : Bool) (g : LState) (t : Nat) : LState :=
  match g.pcs[t]? with
  | none => g
  | some pc =>
    match pc with
    | .start =>
      if g.model && g.vec then { g with pcs := g.pcs.set t .doneFast }
      else { g with pcs := g.pcs.set t .waitLock }
    | .waitLock =>
      match g.lockBy with
      | none => { g with lockBy := some t, pcs := g.pcs.set t .check }
      | some _ => g
    | .check =>
      if !g.model || !g.vec then { g with pcs := g.pcs.set t .loadM }
      else { g with pcs := g.pcs.set t .release }
    | .loadM =>
      if mOk then
        { g with model := true, mLoads := g.mLoads + 1, pcs := g.pcs.set t .loadV }
      else { g with lockBy := none, pcs := g.pcs.set t .doneError }
    | .loadV =>
      if vOk then
        { g with vec := true, vLoads := g.vLoads + 1, pcs := g.pcs.set t .release }
      else { g with lockBy := none, pcs := g.pcs.set t .doneError }
    | .release => { g with lockBy := none, pcs := g.pcs.set t .doneLocked }
    | .doneFast => g
    | .doneLocked => g
    | .doneError => g

/-- Run a schedule (a list of thread ids) from the cold-start state. -/
def loaderRun (mOk vOk : Bool) (n : Nat) (sched : List Nat) : LState :=
  sched.foldl (loaderStep mOk vOk) (loaderInit n)

/-- Every thread has returned (fast path or through the lock). -/
def loaderAllDone (g : LState) : Bool :=
  g.pcs.all (fun pc => pc = .doneFast || pc = .doneLocked)

/-- The thread is inside the critical section guarded by `_artifact_lock`. -/
def TPC.inCS : TPC → Prop
  | .check => True
  | .loadM => True
  | .loadV => True
  | .release => True
  | _ => False

/-- The thread is performing deserialization work. -/
def TPC.deserializing : TPC → Prop
  | .loadM => True
  | .loadV => True
  | _ => False

/-- The inductive invariant of the interleaved loader when both reads
succeed: the lock protects the critical section, the `model`/`vec` flags
track the deserialization counters exactly, the only partial state
(`model` published, `vec` not) exists while its writer holds the lock at
the vectorizer step, and threads only finish once both artifacts are
published. -/
structure LInv (g : LState) : Prop where
  lockA : ∀ (t : Nat) (pc : TPC), g.pcs[t]? = some pc → pc.inCS → g.lockBy = some t
  mCount : g.mLoads = if g.model then 1 else 0
  vCount : g.vLoads = if g.vec then 1 else 0
  vecModel : g.vec = true → g.model = true
  atLoadM : ∀ (t : Nat), g.pcs[t]? = some TPC.loadM → g.model = false ∧ g.vec = false
  atLoadV : ∀ (t : Nat), g.pcs[t]? = some TPC.loadV → g.model = true ∧ g.vec = false
  partialCS : g.model = true → g.vec = false → ∃ (t : Nat), g.pcs[t]? = some TPC.loadV
  atRelease : ∀ (t : Nat), g.pcs[t]? = some TPC.release → g.model = true ∧ g.vec = true
  atDone : ∀ (t : Nat), (g.pcs[t]? = some TPC.doneFast ∨ g.pcs[t]? = some TPC.doneLocked) →
    g.model = true ∧ g.vec = true
  noErr : ∀ (t : Nat), g.pcs[t]? ≠ some TPC.doneError

/-- A stub vectorizer whose transform always succeeds. -/
def stubVec : PVectorizer := fun _ => Except.ok []

/-- A stub classifier whose predict always returns the single plain string
label "REAL". -/
def stubModelReal : PModel := fun _ => Except.ok [PyVal.pyStr "REAL"]

/-- A file system on which both artifact reads succeed. -/
def fsGood : FS :=
  { readModel := Except.ok stubModelReal, readVectorizer := Except.ok stubVec }

/-- A file system whose model file is corrupt (deserialization raises
`pickle.UnpicklingError`). -/
def fsCorrupt : FS :=
  { readModel := Except.error PyErr.unpicklingError,
    readVectorizer := Except.ok stubVec }

/-- A file system where the model file deserializes but the vectorizer file
is missing. -/
def fsNoVec : FS :=
  { readModel := Except.ok stubModelReal,
    readVectorizer := Except.error PyErr.fileNotFoundError }

/-- A store in which both artifacts have been loaded once. -/
def stLoaded : Store :=
  { loadedModel := some stubModelReal, vectorizer := some stubVec,
    modelLoads := 1, vecLoads := 1, lockAcquires := 1, classifyCalls := [] }

/-- A file system whose model file is missing (`open` raises
`FileNotFoundError`). -/
def fsNoModel : FS :=
  { readModel := Except.error PyErr.fileNotFoundError,
    readVectorizer := Except.ok stubVec }

/-- `needle` occurs as a contiguous substring of `hay`. -/
def IsSubstring (needle hay : String) : Prop :=
  ∃ pre post, hay = pre ++ needle ++ post

/-- An environment that overrides only the model path (for witnesses). -/
def envCustom : String → Option String :=
  fun k => if k = "MODEL_PATH" then some "/custom/model.pkl" else none

/-- Lookup in a list after `set` at an in-range index. -/
theorem getElem?_set_of_lt {α : Type} (l : List α) (t : Nat) (ht : t < l.length)
    (x : α) (u : Nat) : (l.set t x)[u]? = if u = t then some x else l[u]? := by
  rcases eq_or_ne u t with rfl | hne
  · simp [List.getElem?_set, ht]
  · rw [List.getElem?_set_ne (Ne.symm hne)]
    simp [hne]

/-- The cold-start state satisfies the invariant. -/
theorem LInv.init (n : Nat) : LInv (loaderInit n) := by
  have hrep : ∀ (t : Nat) (pc : TPC),
      (List.replicate n TPC.start)[t]? = some pc → pc = TPC.start := by
    intro t pc h
    rw [List.getElem?_replicate] at h
    split at h
    · exact (Option.some_inj.mp h).symm
    · exact absurd h (by simp)
  refine ⟨?_, ?_, ?_, ?_, ?_, ?_, ?_, ?_, ?_, ?_⟩ <;>
    simp only [loaderInit]
  · intro t pc h hcs
    rw [hrep t pc h] at hcs
    exact absurd hcs (by simp [TPC.inCS])
  · rfl
  · rfl
  · intro h; exact absurd h (by simp)
  · intro t h; exact absurd (hrep t _ h) (by simp)
  · intro t h; exact absurd (hrep t _ h) (by simp)
  · intro h; exact absurd h (by simp)
  · intro t h; exact absurd (hrep t _ h) (by simp)
  · intro t h
    rcases h with h | h <;> exact absurd (hrep t _ h) (by simp)
  · intro t h; exact absurd (hrep t _ h) (by simp)

/-- One step of any thread preserves the invariant (both reads succeeding). -/
theorem LInv.step {g : LState} (h : LInv g) (t : Nat) :
    LInv (loaderStep true true g t) := by
  cases hpc : g.pcs[t]? with
  | none => simpa [loaderStep, hpc] using h
  | some pc =>
    have ht : t < g.pcs.length := by
      by_contra hlt
      rw [List.getElem?_eq_none (Nat.le_of_not_lt hlt)] at hpc
      exact absurd hpc (by simp)
    have hset := fun (x : TPC) (u : Nat) => getElem?_set_of_lt g.pcs t ht x u
    cases pc with
    | start =>
      by_cases hmv : g.model && g.vec
      · -- fast path: both loaded, thread finishes without the lock
        have hm : g.model = true := by
          revert hmv; cases g.model <;> simp
        have hv : g.vec = true := by
          revert hmv; cases g.vec <;> simp
        simp only [loaderStep, hpc, hmv, if_pos]
        refine ⟨?_, h.mCount, h.vCount, h.vecModel, ?_, ?_, ?_, ?_, ?_, ?_⟩
        · intro u q hu hcs
          rw [hset] at hu
          split at hu
          · rw [← Option.some_inj.mp hu] at hcs
            exact absurd hcs (by simp [TPC.inCS])
          · exact h.lockA u q hu hcs
        · intro u hu
          rw [hset] at hu
          split at hu
          · exact absurd hu (by simp)
          · exact h.atLoadM u hu
        · intro u hu
          rw [hset] at hu
          split at hu
          · exact absurd hu (by simp)
          · exact h.atLoadV u hu
        · intro _ hveq
          rw [hv] at hveq
          exact absurd hveq (by simp)
        · intro u hu
          rw [hset] at hu
          split at hu
          · exact absurd hu (by simp)
          · exact h.atRelease u hu
        · intro u hu
          exact ⟨hm, hv⟩
        · intro u hu
          rw [hset] at hu
          split at hu
          · exact absurd hu (by simp)
          · exact h.noErr u hu
      · -- slow path entry: thread moves to wait on the lock
        simp only [loaderStep, hpc, hmv, if_neg, Bool.not_eq_true]
        refine ⟨?_, h.mCount, h.vCount, h.vecModel, ?_, ?_, ?_, ?_, ?_, ?_⟩
        · intro u q hu hcs
          rw [hset] at hu
          split at hu
          · rw [← Option.some_inj.mp hu] at hcs
            exact absurd hcs (by simp [TPC.inCS])
          · exact h.lockA u q hu hcs
        · intro u hu
          rw [hset] at hu
          split at hu
          · exact absurd hu (by simp)
          · exact h.atLoadM u hu
        · intro u hu
          rw [hset] at hu
          split at hu
          · exact absurd hu (by simp)
          · exact h.atLoadV u hu
        · intro hm hv
          rcases h.partialCS hm hv with ⟨u, hu⟩
          have hut : u ≠ t := by
            intro heq
            rw [heq, hpc] at hu
            exact absurd hu (by simp)
          exact ⟨u, by rw [hset]; simp [hut, hu]⟩
        · intro u hu
          rw [hset] at hu
          split at hu
          · exact absurd hu (by simp)
          · exact h.atRelease u hu
        · intro u hu
          rcases hu with hu | hu <;>
          · rw [hset] at hu
            split at hu
            · exact absurd hu (by simp)
            · exact h.atDone u (by tauto)
        · intro u hu
          rw [hset] at hu
          split at hu
          · exact absurd hu (by simp)
          · exact h.noErr u hu
    | waitLock =>
      cases hl : g.lockBy with
      | none =>
        simp only [loaderStep, hpc, hl]
        refine ⟨?_, h.mCount, h.vCount, h.vecModel, ?_, ?_, ?_, ?_, ?_, ?_⟩
        · intro u q hu hcs
          rw [hset] at hu
          split at hu
          · next heq => rw [heq]
          · have := h.lockA u q hu hcs
            rw [hl] at this
            exact absurd this (by simp)
        · intro u hu
          rw [hset] at hu
          split at hu
          · exact absurd hu (by simp)
          · exact h.atLoadM u hu
        · intro u hu
          rw [hset] at hu
          split at hu
          · exact absurd hu (by simp)
          · exact h.atLoadV u hu
        · intro hm hv
          rcases h.partialCS hm hv with ⟨u, hu⟩
          have := h.lockA u TPC.loadV hu (by simp [TPC.inCS])
          rw [hl] at this
          exact absurd this (by simp)
        · intro u hu
          rw [hset] at hu
          split at hu
          · exact absurd hu (by simp)
          · exact h.atRelease u hu
        · intro u hu
          rcases hu with hu | hu <;>
          · rw [hset] at hu
            split at hu
            · exact absurd hu (by simp)
            · exact h.atDone u (by tauto)
        · intro u hu
          rw [hset] at hu
          split at hu
          · exact absurd hu (by simp)
          · exact h.noErr u hu
      | some w =>
        simpa [loaderStep, hpc, hl] using h
    | check =>
      have hlt : g.lockBy = some t := h.lockA t TPC.check hpc (by simp [TPC.inCS])
      by_cases hcond : (!g.model || !g.vec) = true
      · -- double check sees something missing: go load the model
        have hmodel : g.model = false := by
          by_contra hm
          have hm' : g.model = true := by
            cases hgm : g.model
            · exact absurd hgm hm
            · rfl
          have hv : g.vec = false := by
            rcases Bool.or_eq_true _ _ |>.mp hcond with hx | hx
            · rw [Bool.not_eq_true'] at hx
              rw [hx] at hm'
              exact absurd hm' (by simp)
            · rwa [Bool.not_eq_true'] at hx
          rcases h.partialCS hm' hv with ⟨u, hu⟩
          have := h.lockA u TPC.loadV hu (by simp [TPC.inCS])
          rw [hlt] at this
          have hut : u = t := Option.some_inj.mp this.symm
          rw [hut, hpc] at hu
          exact absurd hu (by simp)
        have hvec : g.vec = false := by
          cases hgv : g.vec
          · rfl
          · have := h.vecModel hgv
            rw [hmodel] at this
            exact absurd this (by simp)
        simp only [loaderStep, hpc]
        rw [if_pos hcond]
        refine ⟨?_, h.mCount, h.vCount, h.vecModel, ?_, ?_, ?_, ?_, ?_, ?_⟩
        · intro u q hu hcs
          rw [hset] at hu
          split at hu
          · next heq => rw [heq, hlt]
          · exact h.lockA u q hu hcs
        · intro u hu
          rw [hset] at hu
          split at hu
          · exact ⟨hmodel, hvec⟩
          · exact ⟨hmodel, hvec⟩
        · intro u hu
          rw [hset] at hu
          split at hu
          · exact absurd hu (by simp)
          · have := (h.atLoadV u hu).1
            rw [hmodel] at this
            exact absurd this (by simp)
        · intro hm _
          rw [hmodel] at hm
          exact absurd hm (by simp)
        · intro u hu
          rw [hset] at hu
          split at hu
          · exact absurd hu (by simp)
          · have := (h.atRelease u hu).1
            rw [hmodel] at this
            exact absurd this (by simp)
        · intro u hu
          have hfalse : False := by
            rcases hu with hu | hu <;>
            · rw [hset] at hu
              split at hu
              · exact absurd hu (by simp)
              · have := (h.atDone u (by tauto)).1
                rw [hmodel] at this
                exact absurd this (by simp)
          exact absurd hfalse (by simp)
        · intro u hu
          rw [hset] at hu
          split at hu
          · exact absurd hu (by simp)
          · exact h.noErr u hu
      · -- double check sees both present: skip to releasing the lock
        have hm : g.model = true := by
          cases hgm : g.model
          · exact absurd (by simp [hgm]) hcond
          · rfl
        have hv : g.vec = true := by
          cases hgv : g.vec
          · exact absurd (by simp [hgv]) hcond
          · rfl
        simp only [loaderStep, hpc]
        rw [if_neg hcond]
        refine ⟨?_, h.mCount, h.vCount, h.vecModel, ?_, ?_, ?_, ?_, ?_, ?_⟩
        · intro u q hu hcs
          rw [hset] at hu
          split at hu
          · next heq => rw [heq, hlt]
          · exact h.lockA u q hu hcs
        · intro u hu
          rw [hset] at hu
          split at hu
          · exact absurd hu (by simp)
          · have := (h.atLoadM u hu).1
            rw [hm] at this
            exact absurd this (by simp)
        · intro u hu
          rw [hset] at hu
          split at hu
          · exact absurd hu (by simp)
          · have := (h.atLoadV u hu).2
            rw [hv] at this
            exact absurd this (by simp)
        · intro _ hveq
          rw [hv] at hveq
          exact absurd hveq (by simp)
        · intro u hu
          rw [hset] at hu
          split at hu
          · exact ⟨hm, hv⟩
          · exact h.atRelease u hu
        · intro u _
          exact ⟨hm, hv⟩
        · intro u hu
          rw [hset] at hu
          split at hu
          · exact absurd hu (by simp)
          · exact h.noErr u hu
    | loadM =>
      have hlm := h.atLoadM t hpc
      have hlt : g.lockBy = some t := h.lockA t TPC.loadM hpc (by simp [TPC.inCS])
      have honly : ∀ u q, g.pcs[u]? = some q → q.inCS → u = t := by
        intro u q hu hcs
        have := h.lockA u q hu hcs
        rw [hlt] at this
        exact Option.some_inj.mp this.symm
      simp only [loaderStep, hpc, if_pos]
      refine ⟨?_, ?_, ?_, ?_, ?_, ?_, ?_, ?_, ?_, ?_⟩
      · intro u q hu hcs
        rw [hset] at hu
        split at hu
        · next heq => rw [heq, hlt]
        · exact h.lockA u q hu hcs
      · have := h.mCount
        rw [hlm.1] at this
        simp [this]
      · simpa [hlm.2] using h.vCount
      · intro _; rfl
      · intro u hu
        rw [hset] at hu
        split at hu
        · exact absurd hu (by simp)
        · next hne =>
          exact absurd (honly u TPC.loadM hu (by simp [TPC.inCS])) hne
      · intro u hu
        constructor
        · rfl
        · rw [hset] at hu
          split at hu
          · exact hlm.2
          · next hne =>
            exact absurd (honly u TPC.loadV hu (by simp [TPC.inCS])) hne
      · intro _ _
        exact ⟨t, by rw [hset]; simp⟩
      · intro u hu
        rw [hset] at hu
        split at hu
        · exact absurd hu (by simp)
        · next hne =>
          exact absurd (honly u TPC.release hu (by simp [TPC.inCS])) hne
      · intro u hu
        have hfalse : False := by
          rcases hu with hu | hu <;>
          · rw [hset] at hu
            split at hu
            · exact absurd hu (by simp)
            · have := (h.atDone u (by tauto)).1
              rw [hlm.1] at this
              exact absurd this (by simp)
        exact absurd hfalse (by simp)
      · intro u hu
        rw [hset] at hu
        split at hu
        · exact absurd hu (by simp)
        · exact h.noErr u hu
    | loadV =>
      have hlv := h.atLoadV t hpc
      have hlt : g.lockBy = some t := h.lockA t TPC.loadV hpc (by simp [TPC.inCS])
      have honly : ∀ u q, g.pcs[u]? = some q → q.inCS → u = t := by
        intro u q hu hcs
        have := h.lockA u q hu hcs
        rw [hlt] at this
        exact Option.some_inj.mp this.symm
      simp only [loaderStep, hpc, if_pos]
      refine ⟨?_, ?_, ?_, ?_, ?_, ?_, ?_, ?_, ?_, ?_⟩
      · intro u q hu hcs
        rw [hset] at hu
        split at hu
        · next heq => rw [heq, hlt]
        · exact h.lockA u q hu hcs
      · simpa [hlv.1] using h.mCount
      · have := h.vCount
        rw [hlv.2] at this
        simp [this]
      · intro _; exact hlv.1
      · intro u hu
        rw [hset] at hu
        split at hu
        · exact absurd hu (by simp)
        · next hne =>
          exact absurd (honly u TPC.loadM hu (by simp [TPC.inCS])) hne
      · intro u hu
        rw [hset] at hu
        split at hu
        · exact absurd hu (by simp)
        · next hne =>
          exact absurd (honly u TPC.loadV hu (by simp [TPC.inCS])) hne
      · intro _ hveq
        exact absurd hveq (by simp)
      · intro u hu
        rw [hset] at hu
        split at hu
        · exact ⟨hlv.1, rfl⟩
        · next hne =>
          exact absurd (honly u TPC.release hu (by simp [TPC.inCS])) hne
      · intro u hu
        have hfalse : False := by
          rcases hu with hu | hu <;>
          · rw [hset] at hu
            split at hu
            · exact absurd hu (by simp)
            · have := (h.atDone u (by tauto)).2
              rw [hlv.2] at this
              exact absurd this (by simp)
        exact absurd hfalse (by simp)
      · intro u hu
        rw [hset] at hu
        split at hu
        · exact absurd hu (by simp)
        · exact h.noErr u hu
    | release =>
      have hr := h.atRelease t hpc
      have hlt : g.lockBy = some t := h.lockA t TPC.release hpc (by simp [TPC.inCS])
      have honly : ∀ u q, g.pcs[u]? = some q → q.inCS → u = t := by
        intro u q hu hcs
        have := h.lockA u q hu hcs
        rw [hlt] at this
        exact Option.some_inj.mp this.symm
      simp only [loaderStep, hpc]
      refine ⟨?_, h.mCount, h.vCount, h.vecModel, ?_, ?_, ?_, ?_, ?_, ?_⟩
      · intro u q hu hcs
        rw [hset] at hu
        split at hu
        · rw [← Option.some_inj.mp hu] at hcs
          exact absurd hcs (by simp [TPC.inCS])
        · next hne =>
          exact absurd (honly u q hu hcs) hne
      · intro u hu
        rw [hset] at hu
        split at hu
        · exact absurd hu (by simp)
        · have := (h.atLoadM u hu).1
          rw [hr.1] at this
          exact absurd this (by simp)
      · intro u hu
        rw [hset] at hu
        split at hu
        · exact absurd hu (by simp)
        · have := (h.atLoadV u hu).2
          rw [hr.2] at this
          exact absurd this (by simp)
      · intro _ hveq
        rw [hr.2] at hveq
        exact absurd hveq (by simp)
      · intro u hu
        rw [hset] at hu
        split at hu
        · exact absurd hu (by simp)
        · exact h.atRelease u hu
      · intro u _
        exact hr
      · intro u hu
        rw [hset] at hu
        split at hu
        · exact absurd hu (by simp)
        · exact h.noErr u hu
    | doneFast => simpa [loaderStep, hpc] using h
    | doneLocked => simpa [loaderStep, hpc] using h
    | doneError => simpa [loaderStep, hpc] using h

/-- The invariant is preserved by any remaining schedule. -/
theorem LInv.fold {g : LState} (h : LInv g) (sched : List Nat) :
    LInv (sched.foldl (loaderStep true true) g) := by
  induction sched generalizing g with
  | nil => exact h
  | cons t rest ih => exact ih (h.step t)

/-- The invariant holds after running any schedule from a cold start. -/
theorem LInv.run (n : Nat) (sched : List Nat) : LInv (loaderRun true true n sched) :=
  (LInv.init n).fold sched

/-- A step never changes the number of threads. -/
theorem loaderStep_length (mOk vOk : Bool) (g : LState) (t : Nat) :
    (loaderStep mOk vOk g t).pcs.length = g.pcs.length := by
  unfold loaderStep
  cases g.pcs[t]? with
  | none => rfl
  | some pc =>
    cases pc <;> dsimp only <;>
      first
        | rfl
        | (split <;> simp)
        | simp

/-- A run from a cold start with `n` threads keeps `n` thread slots. -/
theorem loaderRun_length (mOk vOk : Bool) (n : Nat) (sched : List Nat) :
    (loaderRun mOk vOk n sched).pcs.length = n := by
  unfold loaderRun
  suffices h : ∀ g, (sched.foldl (loaderStep mOk vOk) g).pcs.length = g.pcs.length by
    rw [h]
    simp [loaderInit]
  intro g
  induction sched generalizing g with
  | nil => rfl
  | cons t rest ih => rw [List.foldl_cons, ih, loaderStep_length]

/-- C2: under concurrent cold-start calls to the loader (any number of
request threads plus the background eager-load thread), with both artifact
reads succeeding, for every schedule: at most one deserialization of each
file ever happens, no two threads are inside the deserialization steps at
the same time, and when every thread has returned (each via the fast path or
through the lock) exactly one deserialization of the model file and one of
the vectorizer file have occurred. -/
theorem loader_concurrent_cold_start (n : Nat) (sched : List Nat) :
    ((loaderRun true true n sched).mLoads ≤ 1 ∧
      (loaderRun true true n sched).vLoads ≤ 1) ∧
    (∀ (t1 t2 : Nat) (pc1 pc2 : TPC),
      (loaderRun true true n sched).pcs[t1]? = some pc1 →
      (loaderRun true true n sched).pcs[t2]? = some pc2 →
      pc1.deserializing → pc2.deserializing → t1 = t2) ∧
    (loaderAllDone (loaderRun true true n sched) = true → 1 ≤ n →
      (loaderRun true true n sched).mLoads = 1 ∧
      (loaderRun true true n sched).vLoads = 1) := by
  have hinv := LInv.run n sched
  refine ⟨⟨?_, ?_⟩, ?_, ?_⟩
  · rw [hinv.mCount]; split <;> omega
  · rw [hinv.vCount]; split <;> omega
  · intro t1 t2 pc1 pc2 h1 h2 hd1 hd2
    have hcs1 : pc1.inCS := by
      cases pc1 <;> simp [TPC.deserializing] at hd1 <;> simp [TPC.inCS]
    have hcs2 : pc2.inCS := by
      cases pc2 <;> simp [TPC.deserializing] at hd2 <;> simp [TPC.inCS]
    have l1 := hinv.lockA t1 pc1 h1 hcs1
    have l2 := hinv.lockA t2 pc2 h2 hcs2
    rw [l1] at l2
    exact Option.some_inj.mp l2
  · intro hdone hn
    have hlen := loaderRun_length true true n sched
    have h0 : 0 < (loaderRun true true n sched).pcs.length := by omega
    have hpc0 : (loaderRun true true n sched).pcs[0]? =
        some ((loaderRun true true n sched).pcs[0]) :=
      List.getElem?_eq_getElem h0
    have hmem : ((loaderRun true true n sched).pcs[0]) ∈
        (loaderRun true true n sched).pcs := List.getElem?_mem hpc0
    simp only [loaderAllDone, List.all_eq_true] at hdone
    have hor := hdone _ hmem
    have hd : (loaderRun true true n sched).pcs[0]? = some TPC.doneFast ∨
        (loaderRun true true n sched).pcs[0]? = some TPC.doneLocked := by
      rcases Bool.or_eq_true _ _ |>.mp hor with hx | hx
      · left
        rw [hpc0, show ((loaderRun true true n sched).pcs[0]) = TPC.doneFast
            from by exact_mod_cast of_decide_eq_true hx]
      · right
        rw [hpc0, show ((loaderRun true true n sched).pcs[0]) = TPC.doneLocked
            from by exact_mod_cast of_decide_eq_true hx]
    have hmv := hinv.atDone 0 hd
    refine ⟨?_, ?_⟩
    · rw [hinv.mCount, hmv.1]
      rfl
    · rw [hinv.vCount, hmv.2]
      rfl

/-- Witness for C2: a concrete 3-thread schedule in which thread 0 does the
load and threads 1 and 2 take the fast path; all hypotheses discharged. -/
theorem loader_concurrent_cold_start_witness :
    (loaderRun true true 3 [0, 0, 0, 0]).pcs[0]? = some TPC.loadV ∧
    (0 : Nat) = 0 ∧
    loaderAllDone (loaderRun true true 3 [0, 0, 0, 0, 0, 0, 1, 2]) = true ∧
    (loaderRun true true 3 [0, 0, 0, 0, 0, 0, 1, 2]).mLoads = 1 ∧
    (loaderRun true true 3 [0, 0, 0, 0, 0, 0, 1, 2]).vLoads = 1 := by
  refine ⟨by decide, ?_, by decide, ?_, ?_⟩
  · exact (loader_concurrent_cold_start 3 [0, 0, 0, 0]).2.1 0 0 TPC.loadV TPC.loadV
      (by decide) (by decide) (by trivial) (by trivial)
  · exact ((loader_concurrent_cold_start 3 [0, 0, 0, 0, 0, 0, 1, 2]).2.2
      (by decide) (by decide)).1
  · exact ((loader_concurrent_cold_start 3 [0, 0, 0, 0, 0, 0, 1, 2]).2.2
      (by decide) (by decide)).2

/-- The loader never touches the `classifyCalls` instrumentation. -/
theorem load_calls (fs : FS) (st : Store) :
    (load_artifacts_once fs st).1.classifyCalls = st.classifyCalls := by
  unfold load_artifacts_once
  repeat' first
    | rfl
    | split
    | dsimp only

/-- Fast path: with both artifacts present the loader returns immediately,
leaving the store (including every counter) unchanged. -/
theorem load_fast_path (fs : FS) (st : Store) (h : st.bothLoaded = true) :
    load_artifacts_once fs st = (st, none) := by
  unfold Store.bothLoaded at h
  unfold load_artifacts_once
  rw [if_pos h]

/-- A failing model read: the loader takes the lock and rethrows; neither
artifact reference changes. -/
theorem load_model_read_error (fs : FS) (st : Store) (e : PyErr)
    (hnb : st.bothLoaded = false) (h : fs.readModel = Except.error e) :
    load_artifacts_once fs st =
      ({ st with lockAcquires := st.lockAcquires + 1 }, some e) := by
  cases hL : st.loadedModel <;> cases hV : st.vectorizer <;>
    simp_all [load_artifacts_once, Store.bothLoaded, h]

/-- A model read that succeeds followed by a failing vectorizer read: the
model reference is published before the failure, and stays published. -/
theorem load_vec_read_error (fs : FS) (st : Store) (pm : PModel) (e : PyErr)
    (hnb : st.bothLoaded = false) (hm : fs.readModel = Except.ok pm)
    (hv : fs.readVectorizer = Except.error e) :
    load_artifacts_once fs st =
      ({ st with lockAcquires := st.lockAcquires + 1,
                 loadedModel := some pm, modelLoads := st.modelLoads + 1 },
       some e) := by
  cases hL : st.loadedModel <;> cases hV : st.vectorizer <;>
    simp_all [load_artifacts_once, Store.bothLoaded, hm, hv]

/-- Both reads succeed: both references are published and both load counters
advance by one. -/
theorem load_success (fs : FS) (st : Store) (pm : PModel) (pv : PVectorizer)
    (hnb : st.bothLoaded = false) (hm : fs.readModel = Except.ok pm)
    (hv : fs.readVectorizer = Except.ok pv) :
    load_artifacts_once fs st =
      ({ st with lockAcquires := st.lockAcquires + 1,
                 loadedModel := some pm, modelLoads := st.modelLoads + 1,
                 vectorizer := some pv, vecLoads := st.vecLoads + 1 },
       none) := by
  cases hL : st.loadedModel <;> cases hV : st.vectorizer <;>
    simp_all [load_artifacts_once, Store.bothLoaded, hm, hv]

/-- C1 counterexample: from a cold start, when the model file deserializes
but the vectorizer file is missing, the failed load attempt leaves the model
reference published and the vectorizer absent — partial state persists after
the lock is released, contrary to "both artifacts remain or revert to
absent". -/
theorem loader_partial_state_counterexample :
    (load_artifacts_once fsNoVec Store.initial).1.loadedModel.isSome = true ∧
    (load_artifacts_once fsNoVec Store.initial).1.vectorizer = none ∧
    (load_artifacts_once fsNoVec Store.initial).2 = some PyErr.fileNotFoundError :=
  ⟨rfl, rfl, rfl⟩

/-- C1 (amended): the all-or-nothing guarantee holds for the boolean view
the listed observers actually read (health check, demo page, loader fast
path all test both references): a successful load publishes both, and after
a failed load the observable view is "absent" — but the raw pair may be
partial, since a vectorizer failure leaves the model reference published. -/
theorem loader_observable_all_or_nothing (fs : FS) (st : Store) (mp vp : String)
    (h1 : st.loadedModel = none) (h2 : st.vectorizer = none) :
    ((load_artifacts_once fs st).2 = none →
      (load_artifacts_once fs st).1.bothLoaded = true) ∧
    (∀ e, (load_artifacts_once fs st).2 = some e →
      (load_artifacts_once fs st).1.bothLoaded = false ∧
      (health (load_artifacts_once fs st).1 mp vp).body =
        Body.json [("status", .jstr "ok"), ("model_loaded", .jbool false),
                   ("model_path", .jstr mp), ("vectorizer_path", .jstr vp)]) ∧
    (∀ pm e, fs.readModel = Except.ok pm → fs.readVectorizer = Except.error e →
      (load_artifacts_once fs st).1.loadedModel = some pm ∧
      (load_artifacts_once fs st).1.vectorizer = none) := by
  have hnb : st.bothLoaded = false := by simp [Store.bothLoaded, h1]
  refine ⟨?_, ?_, ?_⟩
  · intro hnone
    cases hM : fs.readModel with
    | error e =>
      rw [load_model_read_error fs st e hnb hM] at hnone
      exact absurd hnone (by simp)
    | ok pm =>
      cases hV : fs.readVectorizer with
      | error e =>
        rw [load_vec_read_error fs st pm e hnb hM hV] at hnone
        exact absurd hnone (by simp)
      | ok pv =>
        rw [load_success fs st pm pv hnb hM hV]
        simp [Store.bothLoaded]
  · intro e he
    cases hM : fs.readModel with
    | error e2 =>
      rw [load_model_read_error fs st e2 hnb hM]
      constructor
      · simp [Store.bothLoaded, h1]
      · simp [health, Store.bothLoaded, h1]
    | ok pm =>
      cases hV : fs.readVectorizer with
      | error e2 =>
        rw [load_vec_read_error fs st pm e2 hnb hM hV]
        constructor
        · simp [Store.bothLoaded, h2]
        · simp [health, Store.bothLoaded, h2]
      | ok pv =>
        rw [load_success fs st pm pv hnb hM hV] at he
        exact absurd he (by simp)
  · intro pm e hM hV
    rw [load_vec_read_error fs st pm e hnb hM hV]
    exact ⟨rfl, h2⟩

/-- Witness for C1's amended theorem at the concrete failing file system. -/
theorem loader_observable_all_or_nothing_witness :
    (load_artifacts_once fsNoVec Store.initial).2 = some PyErr.fileNotFoundError ∧
    (load_artifacts_once fsNoVec Store.initial).1.bothLoaded = false :=
  ⟨rfl,
   ((loader_observable_all_or_nothing fsNoVec Store.initial "m" "v" rfl rfl).2.1
     PyErr.fileNotFoundError rfl).1⟩

/-- Iterating the loader from a fully-loaded store changes nothing. -/
theorem load_iterate_fixed (fs : FS) (st : Store) (h : st.bothLoaded = true) :
    ∀ (N : Nat), (fun s => (load_artifacts_once fs s).1)^[N] st = st := by
  intro N
  induction N with
  | zero => rfl
  | succ n ih =>
    rw [Function.iterate_succ_apply,
        show (load_artifacts_once fs st).1 = st from by rw [load_fast_path fs st h]]
    exact ih

/-- C6: once both artifacts are present every further call to the loader
returns immediately on the fast path: the store — including the lock
counter and both deserialization counters — is unchanged, so no lock is
taken and no file is read; iterating N times changes nothing; and a
cold-start success followed by N further calls has deserialized each
artifact exactly once and taken the lock exactly once. -/
theorem loader_idempotent_after_success (fs : FS) (st : Store)
    (h : st.bothLoaded = true) :
    load_artifacts_once fs st = (st, none) ∧
    (∀ (N : Nat), (fun s => (load_artifacts_once fs s).1)^[N] st = st) ∧
    (∀ (pm : PModel) (pv : PVectorizer), fs.readModel = Except.ok pm →
      fs.readVectorizer = Except.ok pv → ∀ (N : Nat),
      ((fun s => (load_artifacts_once fs s).1)^[N]
        (load_artifacts_once fs Store.initial).1).modelLoads = 1 ∧
      ((fun s => (load_artifacts_once fs s).1)^[N]
        (load_artifacts_once fs Store.initial).1).vecLoads = 1 ∧
      ((fun s => (load_artifacts_once fs s).1)^[N]
        (load_artifacts_once fs Store.initial).1).lockAcquires = 1) := by
  refine ⟨load_fast_path fs st h, load_iterate_fixed fs st h, ?_⟩
  intro pm pv hm hv N
  have h1 := load_success fs Store.initial pm pv rfl hm hv
  have h2 : (load_artifacts_once fs Store.initial).1 =
      { loadedModel := some pm, vectorizer := some pv, modelLoads := 1,
        vecLoads := 1, lockAcquires := 1, classifyCalls := [] } := by
    rw [h1]
    rfl
  rw [h2, load_iterate_fixed fs
    { loadedModel := some pm, vectorizer := some pv, modelLoads := 1,
      vecLoads := 1, lockAcquires := 1, classifyCalls := [] } rfl N]
  exact ⟨rfl, rfl, rfl⟩

/-- Witness for C6 at the concrete loaded store and good file system. -/
theorem loader_idempotent_after_success_witness :
    stLoaded.bothLoaded = true ∧
    load_artifacts_once fsGood stLoaded = (stLoaded, none) ∧
    ((fun s => (load_artifacts_once fsGood s).1)^[5]
      (load_artifacts_once fsGood Store.initial).1).modelLoads = 1 :=
  ⟨rfl, (loader_idempotent_after_success fsGood stLoaded rfl).1,
   ((loader_idempotent_after_success fsGood stLoaded rfl).2.2
     stubModelReal stubVec rfl rfl 5).1⟩

/-- C5: with artifacts loaded, `classify` passes `[text]` through the
vectorizer's transform, hands the result to the classifier's predict, and
returns the first element of the prediction batch normalized to a plain
string; a boxed scalar is unwrapped via `.item()` first, and a plain string
prediction is returned exactly, with no alteration. -/
theorem predict_text_normalizes (fs : FS) (st : Store) (msg : String)
    (vec : PVectorizer) (pm : PModel) (feats : Feat) (v : PyVal) (rest : List PyVal)
    (hv : st.vectorizer = some vec) (hm : st.loadedModel = some pm)
    (ht : vec [msg] = Except.ok feats) (hp : pm feats = Except.ok (v :: rest)) :
    (predict_text fs st msg).2 =
      Except.ok (PyVal.pyToStr (if v.hasattrItem then v.item else v)) ∧
    (∀ s, v = PyVal.pyStr s → (predict_text fs st msg).2 = Except.ok s) ∧
    (∀ s, v = PyVal.npStr s → (predict_text fs st msg).2 = Except.ok s) := by
  have hload : load_artifacts_once fs
      { loadedModel := some pm, vectorizer := some vec,
        modelLoads := st.modelLoads, vecLoads := st.vecLoads,
        lockAcquires := st.lockAcquires,
        classifyCalls := st.classifyCalls ++ [msg] } =
      ({ loadedModel := some pm, vectorizer := some vec,
         modelLoads := st.modelLoads, vecLoads := st.vecLoads,
         lockAcquires := st.lockAcquires,
         classifyCalls := st.classifyCalls ++ [msg] }, none) :=
    load_fast_path _ _ rfl
  refine ⟨?_, ?_, ?_⟩
  · simp [predict_text, hload, hv, ht, hm, hp]
  · intro s hs
    subst hs
    simp [predict_text, hload, hv, ht, hm, hp, PyVal.hasattrItem, PyVal.pyToStr]
  · intro s hs
    subst hs
    simp [predict_text, hload, hv, ht, hm, hp, PyVal.hasattrItem, PyVal.item,
      PyVal.pyToStr]

/-- Witness for C5: the stub pair returns the plain string label exactly. -/
theorem predict_text_normalizes_witness :
    (predict_text fsGood stLoaded "sample text").2 = Except.ok "REAL" :=
  (predict_text_normalizes fsGood stLoaded "sample text" stubVec stubModelReal
    [] (PyVal.pyStr "REAL") [] rfl rfl rfl rfl).2.1 "REAL" rfl

/-- Inference when the model file read fails: the exception propagates. -/
theorem predict_text_model_read_error (fs : FS) (st : Store) (m : String)
    (e : PyErr) (hnb : st.bothLoaded = false)
    (hM : fs.readModel = Except.error e) :
    predict_text fs st m =
      ({ st with lockAcquires := st.lockAcquires + 1,
                 classifyCalls := st.classifyCalls ++ [m] },
       Except.error e) := by
  have hload := load_model_read_error fs
    { st with classifyCalls := st.classifyCalls ++ [m] } e hnb hM
  simp [predict_text, hload]

/-- Inference when the model deserializes but the vectorizer read fails:
the exception propagates, with the model left published. -/
theorem predict_text_vec_read_error (fs : FS) (st : Store) (m : String)
    (pm : PModel) (e : PyErr) (hnb : st.bothLoaded = false)
    (hM : fs.readModel = Except.ok pm)
    (hV : fs.readVectorizer = Except.error e) :
    predict_text fs st m =
      ({ st with lockAcquires := st.lockAcquires + 1,
                 loadedModel := some pm, modelLoads := st.modelLoads + 1,
                 classifyCalls := st.classifyCalls ++ [m] },
       Except.error e) := by
  have hload := load_vec_read_error fs
    { st with classifyCalls := st.classifyCalls ++ [m] } pm e hnb hM hV
  simp [predict_text, hload]

/-- C3 counterexample: a corrupt model file (`pickle.UnpicklingError`) is
not mapped to 503 — the generic handler returns 500, though the spec groups
"corrupt/undeserializable" under ArtifactLoadError/503. -/
theorem predict_corrupt_file_counterexample :
    (predict_json fsCorrupt Store.initial
      (some [("message", JVal.jstr "hello")])).2.status = 500 ∧
    (predict_json fsCorrupt Store.initial
      (some [("message", JVal.jstr "hello")])).2.status ≠ 503 :=
  ⟨rfl, by rw [show (predict_json fsCorrupt Store.initial
      (some [("message", JVal.jstr "hello")])).2.status = 500 from rfl]; omega⟩

/-- C3 (amended): only a missing artifact file (`FileNotFoundError`) maps to
503 with the generic artifacts message on both prediction endpoints; an
unreadable (`PermissionError`) or corrupt (`UnpicklingError`) file falls
into the generic `except Exception` branch and yields 500; `GET /` returns
200 regardless. -/
theorem predict_artifact_error_statuses (fs : FS) (st : Store) (mp vp : String)
    (m : String) (hm : m ≠ "") (hms : pyStrip m = m)
    (hnb : st.bothLoaded = false) :
    (fs.readModel = Except.error PyErr.fileNotFoundError →
      (predict_json fs st (some [("message", JVal.jstr m)])).2.status = 503 ∧
      (predict_json fs st (some [("message", JVal.jstr m)])).2.body =
        Body.json [("error", JVal.jstr errMsgArtifacts)] ∧
      (predict_form fs st mp (some m)).2.status = 503) ∧
    (∀ pm, fs.readModel = Except.ok pm →
      fs.readVectorizer = Except.error PyErr.fileNotFoundError →
      (predict_json fs st (some [("message", JVal.jstr m)])).2.status = 503 ∧
      (predict_form fs st mp (some m)).2.status = 503) ∧
    (∀ e, e = PyErr.permissionError ∨ e = PyErr.unpicklingError →
      fs.readModel = Except.error e →
      (predict_json fs st (some [("message", JVal.jstr m)])).2.status = 500 ∧
      (predict_json fs st (some [("message", JVal.jstr m)])).2.body =
        Body.json [("error", JVal.jstr errMsgInference)] ∧
      (predict_form fs st mp (some m)).2.status = 500) ∧
    (health st mp vp).status = 200 := by
  have hjm : pyStrip (pyStrOfJVal (jsonGet [("message", JVal.jstr m)]
      "message" (JVal.jstr ""))) = m := by
    simp [jsonGet, List.lookup, pyStrOfJVal, hms]
  have hfm : pyStrip (pyOrElse (some m) "") = m := by
    simp [pyOrElse, hm, hms]
  refine ⟨?_, ?_, ?_, rfl⟩
  · intro hM
    have hpt := predict_text_model_read_error fs st m PyErr.fileNotFoundError hnb hM
    refine ⟨?_, ?_, ?_⟩
    · simp [predict_json, hjm, hm, hpt]
    · simp [predict_json, hjm, hm, hpt]
    · simp [predict_form, hfm, hm, hpt]
  · intro pm hM hV
    have hpt := predict_text_vec_read_error fs st m pm PyErr.fileNotFoundError hnb hM hV
    constructor
    · simp [predict_json, hjm, hm, hpt]
    · simp [predict_form, hfm, hm, hpt]
  · intro e he hM
    have hpt := predict_text_model_read_error fs st m e hnb hM
    rcases he with rfl | rfl
    · exact ⟨by simp [predict_json, hjm, hm, hpt],
        by simp [predict_json, hjm, hm, hpt],
        by simp [predict_form, hfm, hm, hpt]⟩
    · exact ⟨by simp [predict_json, hjm, hm, hpt],
        by simp [predict_json, hjm, hm, hpt],
        by simp [predict_form, hfm, hm, hpt]⟩

/-- Witness for C3's amended theorem: missing model file gives 503, missing
vectorizer file gives 503, corrupt model file gives 500. -/
theorem predict_artifact_error_statuses_witness :
    (predict_json fsNoModel Store.initial
      (some [("message", JVal.jstr "hi")])).2.status = 503 ∧
    (predict_json fsNoVec Store.initial
      (some [("message", JVal.jstr "hi")])).2.status = 503 ∧
    (predict_json fsCorrupt Store.initial
      (some [("message", JVal.jstr "hi")])).2.status = 500 :=
  ⟨((predict_artifact_error_statuses fsNoModel Store.initial "m" "v" "hi"
      (by decide) rfl rfl).1 rfl).1,
   ((predict_artifact_error_statuses fsNoVec Store.initial "m" "v" "hi"
      (by decide) rfl rfl).2.1 stubModelReal rfl rfl).1,
   ((predict_artifact_error_statuses fsCorrupt Store.initial "m" "v" "hi"
      (by decide) rfl rfl).2.2.1 PyErr.unpicklingError (Or.inr rfl) rfl).1⟩

/-- The head surviving `dropWhile` fails the predicate. -/
theorem dropWhile_head_false (p : Char → Bool) (l : List Char) (c : Char)
    (h : (l.dropWhile p).head? = some c) : p c = false := by
  induction l with
  | nil => simp [List.dropWhile] at h
  | cons a t ih =>
    rw [List.dropWhile_cons] at h
    by_cases hp : p a
    · rw [if_pos hp] at h
      exact ih h
    · rw [if_neg hp] at h
      simp only [List.head?_cons, Option.some_inj] at h
      rw [← h]
      exact Bool.not_eq_true _ |>.mp hp

/-- `dropWhile` is the identity when the head already fails the predicate. -/
theorem dropWhile_eq_self_of_head (p : Char → Bool) (l : List Char)
    (h : ∀ c, l.head? = some c → p c = false) : l.dropWhile p = l := by
  cases l with
  | nil => rfl
  | cons a t =>
    rw [List.dropWhile_cons, if_neg]
    simp [h a rfl]

/-- `dropWhile` keeps the last element when its result is nonempty. -/
theorem dropWhile_getLast? (p : Char → Bool) (l : List Char)
    (h : l.dropWhile p ≠ []) : (l.dropWhile p).getLast? = l.getLast? := by
  induction l with
  | nil => simp [List.dropWhile] at h
  | cons a t ih =>
    rw [List.dropWhile_cons] at h ⊢
    by_cases hp : p a
    · rw [if_pos hp] at h ⊢
      have ht : t ≠ [] := by
        intro he
        rw [he] at h
        simp [List.dropWhile] at h
      rw [ih h]
      cases t with
      | nil => exact absurd rfl ht
      | cons b t2 => rw [List.getLast?_cons_cons]
    · rw [if_neg hp]

/-- Python `strip` is idempotent. -/
theorem pyStrip_idem (s : String) : pyStrip (pyStrip s) = pyStrip s := by
  show String.mk _ = String.mk _
  congr 1
  show ((((s.data.dropWhile pyIsSpace).reverse.dropWhile
      pyIsSpace).reverse.dropWhile pyIsSpace).reverse.dropWhile
      pyIsSpace).reverse =
    ((s.data.dropWhile pyIsSpace).reverse.dropWhile pyIsSpace).reverse
  set l1 := s.data.dropWhile pyIsSpace with hl1
  set x := l1.reverse.dropWhile pyIsSpace with hx
  have h1 : x.reverse.dropWhile pyIsSpace = x.reverse := by
    apply dropWhile_eq_self_of_head
    intro c hc
    rw [List.head?_reverse x] at hc
    by_cases hxe : x = []
    · rw [hxe] at hc
      simp at hc
    · rw [hx, dropWhile_getLast? pyIsSpace l1.reverse (by rw [← hx]; exact hxe)] at hc
      rw [List.getLast?_reverse l1] at hc
      exact dropWhile_head_false pyIsSpace s.data c (by rw [← hl1]; exact hc)
  rw [h1, List.reverse_reverse]
  have h2 : x.dropWhile pyIsSpace = x := by
    apply dropWhile_eq_self_of_head
    intro c hc
    rw [hx] at hc
    exact dropWhile_head_false pyIsSpace l1.reverse c hc
  rw [h2]

/-- The inference function records exactly its argument in the call log. -/
theorem predict_text_calls (fs : FS) (st : Store) (m : String) :
    (predict_text fs st m).1.classifyCalls = st.classifyCalls ++ [m] := by
  rcases hload : load_artifacts_once fs
      { st with classifyCalls := st.classifyCalls ++ [m] } with ⟨st1, err⟩
  have hc : st1.classifyCalls = st.classifyCalls ++ [m] := by
    have h2 := load_calls fs { st with classifyCalls := st.classifyCalls ++ [m] }
    rw [hload] at h2
    exact h2
  simp only [predict_text, hload]
  cases err with
  | some e => simpa using hc
  | none =>
    dsimp only
    cases hv : st1.vectorizer with
    | none => simpa using hc
    | some vec =>
      simp only [hv]
      cases htr : vec [m] with
      | error e => simpa using hc
      | ok feats =>
        simp only [htr]
        cases hm2 : st1.loadedModel with
        | none => simpa using hc
        | some pmm =>
          simp only [hm2]
          cases hpr : pmm feats with
          | error e => simpa using hc
          | ok l =>
            try simp only [hpr]
            cases l with
            | nil => simpa using hc
            | cons v tail => simpa using hc

/-- When validation passes, the JSON handler hands the stripped message to
the inference function and answers with one of the three mapped statuses. -/
theorem predict_json_calls_of_msg (fs : FS) (st : Store)
    (req : Option (List (String × JVal))) (m : String)
    (hmsg : pyStrip (pyStrOfJVal (jsonGet (req.getD []) "message"
      (JVal.jstr ""))) = m)
    (hne : m ≠ "") :
    (predict_json fs st req).1.classifyCalls = st.classifyCalls ++ [m] ∧
    ((predict_json fs st req).2.status = 200 ∨
     (predict_json fs st req).2.status = 503 ∨
     (predict_json fs st req).2.status = 500) := by
  simp only [predict_json, hmsg]
  rw [if_neg hne]
  rcases hpt : predict_text fs st m with ⟨st1, res⟩
  have hcalls : st1.classifyCalls = st.classifyCalls ++ [m] := by
    have h2 := predict_text_calls fs st m
    rw [hpt] at h2
    exact h2
  cases res with
  | ok label => exact ⟨hcalls, Or.inl rfl⟩
  | error e => cases e <;> exact ⟨hcalls, by simp⟩

/-- C7: a missing `message` field, or one whose value strips to the empty
string, is rejected at the boundary with 400 and the exact JSON error body,
the store untouched; and whenever either endpoint does invoke the inference
function, the recorded argument is non-empty and already stripped — so
`classify` is never called with an empty or whitespace-only message. -/
theorem predict_empty_message_rejected (fs : FS) (st : Store) (mp : String) :
    (∀ (req : Option (List (String × JVal))),
      pyStrip (pyStrOfJVal (jsonGet (req.getD []) "message" (JVal.jstr ""))) = "" →
      predict_json fs st req =
        (st, { status := 400,
               body := Body.json [("error", JVal.jstr errMsgRequired)] }) ∧
      bodyText (predict_json fs st req).2.body =
        "\x7b\"error\": \"Field \x27message\x27 is required and must be non-empty.\"\x7d") ∧
    (∀ (body : List (String × JVal)), body.lookup "message" = none →
      predict_json fs st (some body) =
        (st, { status := 400,
               body := Body.json [("error", JVal.jstr errMsgRequired)] })) ∧
    (∀ (fm : Option String), pyStrip (pyOrElse fm "") = "" →
      (predict_form fs st mp fm).1 = st ∧
      (predict_form fs st mp fm).2.status = 400) ∧
    (∀ (req : Option (List (String × JVal))),
      (predict_json fs st req).1.classifyCalls = st.classifyCalls ∨
      ∃ m2, (predict_json fs st req).1.classifyCalls = st.classifyCalls ++ [m2] ∧
        m2 ≠ "" ∧ pyStrip m2 = m2) ∧
    (∀ (fm : Option String),
      (predict_form fs st mp fm).1.classifyCalls = st.classifyCalls ∨
      ∃ m2, (predict_form fs st mp fm).1.classifyCalls = st.classifyCalls ++ [m2] ∧
        m2 ≠ "" ∧ pyStrip m2 = m2) := by
  refine ⟨?_, ?_, ?_, ?_, ?_⟩
  · intro req h
    constructor
    · simp [predict_json, h]
    · simp [predict_json, h]
      rfl
  · intro body h
    have h0 : pyStrip (pyStrOfJVal (jsonGet body "message" (JVal.jstr ""))) = "" := by
      unfold jsonGet
      rw [h]
      rfl
    simp [predict_json, h0]
  · intro fm h
    constructor
    · simp [predict_form, h]
    · simp [predict_form, h]
  · intro req
    by_cases hmsg : pyStrip (pyStrOfJVal (jsonGet (req.getD []) "message"
        (JVal.jstr ""))) = ""
    · left
      simp [predict_json, hmsg]
    · right
      refine ⟨pyStrip (pyStrOfJVal (jsonGet (req.getD []) "message"
        (JVal.jstr ""))), ?_, hmsg, pyStrip_idem _⟩
      exact (predict_json_calls_of_msg fs st req _ rfl hmsg).1
  · intro fm
    by_cases hmsg : pyStrip (pyOrElse fm "") = ""
    · left
      simp [predict_form, hmsg]
    · right
      refine ⟨pyStrip (pyOrElse fm ""), ?_, hmsg, pyStrip_idem _⟩
      simp only [predict_form]
      rw [if_neg hmsg]
      rcases hpt : predict_text fs st (pyStrip (pyOrElse fm "")) with ⟨st1, res⟩
      have hcalls : st1.classifyCalls =
          st.classifyCalls ++ [pyStrip (pyOrElse fm "")] := by
        have h2 := predict_text_calls fs st (pyStrip (pyOrElse fm ""))
        rw [hpt] at h2
        exact h2
      cases res with
      | ok label => exact hcalls
      | error e => cases e <;> exact hcalls

/-- Witness for C7: empty and whitespace-only messages get the exact 400
body with the store untouched. -/
theorem predict_empty_message_rejected_witness :
    predict_json fsGood Store.initial (some [("message", JVal.jstr "  ")]) =
      (Store.initial,
        { status := 400,
          body := Body.json [("error", JVal.jstr errMsgRequired)] }) ∧
    (predict_form fsGood Store.initial "m" (some "")).2.status = 400 :=
  ⟨((predict_empty_message_rejected fsGood Store.initial "m").1
      (some [("message", JVal.jstr "  ")]) (by decide)).1,
   ((predict_empty_message_rejected fsGood Store.initial "m").2.2.1
      (some "") (by decide)).2⟩

/-- C9: a non-string JSON `message` is coerced with `str()` before the
emptiness check: `null` becomes the four-character string "None", `true`
becomes "True" and `7` becomes "7"; each passes validation (no 400) and is
handed to the inference function. -/
theorem predict_json_nonstring_coercion (fs : FS) (st : Store) :
    ((predict_json fs st (some [("message", JVal.null)])).1.classifyCalls =
      st.classifyCalls ++ ["None"] ∧
     (predict_json fs st (some [("message", JVal.null)])).2.status ≠ 400) ∧
    ((predict_json fs st (some [("message", JVal.jbool true)])).1.classifyCalls =
      st.classifyCalls ++ ["True"] ∧
     (predict_json fs st (some [("message", JVal.jbool true)])).2.status ≠ 400) ∧
    ((predict_json fs st (some [("message", JVal.jnum 7)])).1.classifyCalls =
      st.classifyCalls ++ ["7"] ∧
     (predict_json fs st (some [("message", JVal.jnum 7)])).2.status ≠ 400) := by
  have h1 := predict_json_calls_of_msg fs st (some [("message", JVal.null)])
    "None" (by decide) (by decide)
  have h2 := predict_json_calls_of_msg fs st (some [("message", JVal.jbool true)])
    "True" (by decide) (by decide)
  have h3 := predict_json_calls_of_msg fs st (some [("message", JVal.jnum 7)])
    "7" (by decide) (by decide)
  refine ⟨⟨h1.1, ?_⟩, ⟨h2.1, ?_⟩, ⟨h3.1, ?_⟩⟩
  · rcases h1.2 with h | h | h <;> omega
  · rcases h2.2 with h | h | h <;> omega
  · rcases h3.2 with h | h | h <;> omega

/-- Witness for C9 at the initial store and the good file system. -/
theorem predict_json_nonstring_coercion_witness :
    (predict_json fsGood Store.initial
      (some [("message", JVal.null)])).1.classifyCalls = ["None"] :=
  (predict_json_nonstring_coercion fsGood Store.initial).1.1

/-- C8: `GET /` returns 200 in every load state, and its body reports
`model_loaded` — true exactly when both the model and the vectorizer are
present — together with the two resolved artifact paths. -/
theorem health_always_200_reports_state (st : Store) (mp vp : String) :
    (health st mp vp).status = 200 ∧
    (health st mp vp).body =
      Body.json [("status", JVal.jstr "ok"),
                 ("model_loaded",
                  JVal.jbool (st.loadedModel.isSome && st.vectorizer.isSome)),
                 ("model_path", JVal.jstr mp),
                 ("vectorizer_path", JVal.jstr vp)] ∧
    ((st.loadedModel.isSome && st.vectorizer.isSome) = true ↔
      st.loadedModel ≠ none ∧ st.vectorizer ≠ none) := by
  refine ⟨rfl, rfl, ?_⟩
  cases st.loadedModel <;> cases st.vectorizer <;> simp

/-- C10: each artifact path resolves to the environment override when it is
set and non-empty, and otherwise — unset or set to the empty string — to
the fixed default filename joined to the source file's directory. -/
theorem path_resolution_env_override (env : String → Option String) (b : String) :
    (∀ s, env "MODEL_PATH" = some s → s ≠ "" → MODEL_PATH env b = s) ∧
    (env "MODEL_PATH" = none →
      MODEL_PATH env b = os_path_join b "basic_classifier.pkl") ∧
    (env "MODEL_PATH" = some "" →
      MODEL_PATH env b = os_path_join b "basic_classifier.pkl") ∧
    (∀ s, env "VECTORIZER_PATH" = some s → s ≠ "" → VECTORIZER_PATH env b = s) ∧
    (env "VECTORIZER_PATH" = none →
      VECTORIZER_PATH env b = os_path_join b "count_vectorizer.pkl") ∧
    (env "VECTORIZER_PATH" = some "" →
      VECTORIZER_PATH env b = os_path_join b "count_vectorizer.pkl") := by
  refine ⟨?_, ?_, ?_, ?_, ?_, ?_⟩
  · intro s hs hne
    unfold MODEL_PATH pyOrElse
    rw [hs]
    dsimp only
    rw [if_neg hne]
  · intro h
    unfold MODEL_PATH pyOrElse
    rw [h]
  · intro h
    unfold MODEL_PATH pyOrElse
    rw [h]
    simp
  · intro s hs hne
    unfold VECTORIZER_PATH pyOrElse
    rw [hs]
    dsimp only
    rw [if_neg hne]
  · intro h
    unfold VECTORIZER_PATH pyOrElse
    rw [h]
  · intro h
    unfold VECTORIZER_PATH pyOrElse
    rw [h]
    simp

/-- Witness for C10: a non-empty override wins for the model path while the
unset vectorizer variable falls back to the default joined to the base
directory. -/
theorem path_resolution_env_override_witness :
    MODEL_PATH envCustom "/app" = "/custom/model.pkl" ∧
    VECTORIZER_PATH envCustom "/app" = "/app/count_vectorizer.pkl" :=
  ⟨(path_resolution_env_override envCustom "/app").1 "/custom/model.pkl"
      (by decide) (by decide),
   ((path_resolution_env_override envCustom "/app").2.2.2.2.1 (by decide)).trans
     (by decide)⟩

set_option maxRecDepth 8192 in
/-- Every rendered demo page embeds the (escaped) model path in its footer. -/
theorem renderDemoHtml_contains_model_path (lo : Bool) (mp : String)
    (pr er : Option String) (fm : String) :
    IsSubstring (htmlEscape mp) (renderDemoHtml lo mp pr er fm) :=
  ⟨demoHtmlHead
    ++ (if lo then "status-ok" else "status-fail")
    ++ "\">\n      <strong>Model Status:</strong> "
    ++ (if lo then "Loaded successfully." else "Not loaded. Predictions will fail.")
    ++ demoHtmlForm
    ++ htmlEscape fm
    ++ demoHtmlAfterForm
    ++ (match pr with
        | some p =>
          "\n      <div class=\"result\">\n        <h2>Prediction</h2>\n        <p>The model classified the text as: <strong>"
          ++ htmlEscape p ++ "</strong></p>\n      </div>\n    "
        | none => "")
    ++ "\n\n    "
    ++ (match er with
        | some e =>
          "\n      <div class=\"error\">\n        <h2>Error</h2>\n        <p>"
          ++ htmlEscape e ++ "</p>\n      </div>\n    "
        | none => "")
    ++ demoHtmlFooterPre,
   demoHtmlFooterPost, by unfold renderDemoHtml; with_reducible rfl⟩

/-- A character occurring in a substring occurs in the enclosing string. -/
theorem mem_of_isSubstring (c : Char) (p hay : String) (hc : c ∈ p.data)
    (hs : IsSubstring p hay) : c ∈ hay.data := by
  rcases hs with ⟨pre, post, rfl⟩
  rw [String.data_append, String.data_append]
  simp only [List.mem_append]
  exact Or.inl (Or.inr hc)

/-- The JSON endpoint's 503 and 500 bodies are the fixed generic objects. -/
theorem predict_json_error_bodies (fs : FS) (st : Store)
    (req : Option (List (String × JVal))) :
    ((predict_json fs st req).2.status = 503 →
      (predict_json fs st req).2.body =
        Body.json [("error", JVal.jstr errMsgArtifacts)]) ∧
    ((predict_json fs st req).2.status = 500 →
      (predict_json fs st req).2.body =
        Body.json [("error", JVal.jstr errMsgInference)]) := by
  by_cases hm : pyStrip (pyStrOfJVal (jsonGet (req.getD []) "message"
      (JVal.jstr ""))) = ""
  · constructor <;>
    · intro h
      simp [predict_json, hm] at h
  · simp only [predict_json]
    rw [if_neg hm]
    rcases hpt : predict_text fs st (pyStrip (pyStrOfJVal
      (jsonGet (req.getD []) "message" (JVal.jstr "")))) with ⟨st1, res⟩
    cases res with
    | ok label =>
      constructor <;>
      · intro h
        simp at h
    | error e =>
      cases e <;> constructor <;>
      · intro h
        first
          | rfl
          | simp at h

/-- Every `POST /predict-form` response body is a rendered demo page for the
given model path, with the submitted message echoed; on 503 the error slot
is the fixed artifacts message, on 500 the fixed inference message — never
the exception text. -/
theorem predict_form_body_shape (fs : FS) (st : Store) (mp : String)
    (fm : Option String) :
    ∃ b pr er, (predict_form fs st mp fm).2.body =
      Body.html (renderDemoHtml b mp pr er (fm.getD "")) ∧
    ((predict_form fs st mp fm).2.status = 503 →
      b = false ∧ pr = none ∧ er = some errMsgArtifacts) ∧
    ((predict_form fs st mp fm).2.status = 500 →
      pr = none ∧ er = some errMsgInference) := by
  by_cases hm : pyStrip (pyOrElse fm "") = ""
  · refine ⟨st.bothLoaded, none, some errMsgRequired, ?_, ?_, ?_⟩ <;>
      simp [predict_form, hm]
  · simp only [predict_form]
    rw [if_neg hm]
    rcases hpt : predict_text fs st (pyStrip (pyOrElse fm "")) with ⟨st1, res⟩
    cases res with
    | ok label =>
      exact ⟨true, some label, none, rfl, by intro h; simp at h,
        by intro h; simp at h⟩
    | error e =>
      cases e with
      | fileNotFoundError =>
        exact ⟨false, none, some errMsgArtifacts, rfl,
          fun _ => ⟨rfl, rfl, rfl⟩, by intro h; simp at h⟩
      | permissionError =>
        exact ⟨st1.bothLoaded, none, some errMsgInference, rfl,
          by intro h; simp at h, fun _ => ⟨rfl, rfl⟩⟩
      | unpicklingError =>
        exact ⟨st1.bothLoaded, none, some errMsgInference, rfl,
          by intro h; simp at h, fun _ => ⟨rfl, rfl⟩⟩
      | otherError msg =>
        exact ⟨st1.bothLoaded, none, some errMsgInference, rfl,
          by intro h; simp at h, fun _ => ⟨rfl, rfl⟩⟩

/-- C4 counterexample: the 503 error page of `/predict-form` contains the
resolved model path (the demo footer renders it on every page), so "no
filesystem path in any error response body" is false. -/
theorem predict_form_path_leak_counterexample :
    (predict_form fsNoModel Store.initial
      (MODEL_PATH (fun _ => none) "/app") (some "hello")).2.status = 503 ∧
    IsSubstring "/app/basic_classifier.pkl"
      (bodyText (predict_form fsNoModel Store.initial
        (MODEL_PATH (fun _ => none) "/app") (some "hello")).2.body) := by
  have hmp : MODEL_PATH (fun _ => none) "/app" = "/app/basic_classifier.pkl" := by
    decide
  rw [hmp]
  refine ⟨rfl, ?_⟩
  have hesc : htmlEscape "/app/basic_classifier.pkl" =
      "/app/basic_classifier.pkl" := by decide
  have hbody : (predict_form fsNoModel Store.initial
      "/app/basic_classifier.pkl" (some "hello")).2.body =
      Body.html (renderDemoHtml false "/app/basic_classifier.pkl" none
        (some errMsgArtifacts) "hello") := rfl
  rw [hbody]
  simp only [bodyText]
  have h2 := renderDemoHtml_contains_model_path false
    "/app/basic_classifier.pkl" none (some errMsgArtifacts) "hello"
  rw [hesc] at h2
  exact h2

/-- C4 (amended): on `/predict` the 503 and 500 bodies are the fixed generic
JSON objects — independent of the paths and of any exception text, and
containing no `/`, hence no filesystem path; on `/predict-form` the 503 and
500 pages carry only the fixed generic error messages (never the exception
text), but every rendered page, the error pages included, embeds the
(escaped) resolved model path in its footer. -/
theorem error_responses_sanitized (fs : FS) (st : Store) (mp : String)
    (req : Option (List (String × JVal))) (fm : Option String) :
    ((predict_json fs st req).2.status = 503 →
      (predict_json fs st req).2.body =
        Body.json [("error", JVal.jstr errMsgArtifacts)]) ∧
    ((predict_json fs st req).2.status = 500 →
      (predict_json fs st req).2.body =
        Body.json [("error", JVal.jstr errMsgInference)]) ∧
    (∀ p, '/' ∈ p.data →
      ¬ IsSubstring p (bodyText (Body.json [("error", JVal.jstr errMsgArtifacts)])) ∧
      ¬ IsSubstring p (bodyText (Body.json [("error", JVal.jstr errMsgInference)]))) ∧
    IsSubstring (htmlEscape mp) (bodyText (predict_form fs st mp fm).2.body) ∧
    ((predict_form fs st mp fm).2.status = 503 →
      (predict_form fs st mp fm).2.body =
        Body.html (renderDemoHtml false mp none (some errMsgArtifacts)
          (fm.getD ""))) ∧
    ((predict_form fs st mp fm).2.status = 500 → ∃ b,
      (predict_form fs st mp fm).2.body =
        Body.html (renderDemoHtml b mp none (some errMsgInference)
          (fm.getD ""))) := by
  obtain ⟨b, pr, er, hbody, h503, h500⟩ := predict_form_body_shape fs st mp fm
  refine ⟨(predict_json_error_bodies fs st req).1,
    (predict_json_error_bodies fs st req).2, ?_, ?_, ?_, ?_⟩
  · intro p hp
    constructor <;>
    · intro hsub
      have hmem := mem_of_isSubstring '/' p _ hp hsub
      revert hmem
      decide
  · rw [hbody]
    simp only [bodyText]
    exact renderDemoHtml_contains_model_path b mp pr er (fm.getD "")
  · intro h
    obtain ⟨hb, hpr, her⟩ := h503 h
    rw [hbody, hb, hpr, her]
  · intro h
    obtain ⟨hpr, her⟩ := h500 h
    exact ⟨b, by rw [hbody, hpr, her]⟩

/-- Witness for C4's amended theorem: concrete 503 responses on both
endpoints, with the fixed JSON body and the model path embedded in the form
page. -/
theorem error_responses_sanitized_witness :
    (predict_json fsNoModel Store.initial
      (some [("message", JVal.jstr "x")])).2.body =
      Body.json [("error", JVal.jstr errMsgArtifacts)] ∧
    IsSubstring (htmlEscape "/app/basic_classifier.pkl")
      (bodyText (predict_form fsNoModel Store.initial
        "/app/basic_classifier.pkl" (some "x")).2.body) :=
  ⟨(error_responses_sanitized fsNoModel Store.initial "/app/basic_classifier.pkl"
      (some [("message", JVal.jstr "x")]) (some "x")).1 rfl,
   (error_responses_sanitized fsNoModel Store.initial "/app/basic_classifier.pkl"
      (some [("message", JVal.jstr "x")]) (some "x")).2.2.2.1⟩

end App
